import Mathlib

/-!
Shallow embedding of `worker.py` from the `uptrack1` repository: a background
worker that drains `pending` order rows from a database, routes each order to a
configured store by an order-name prefix, runs a three-step Shopify fulfillment
workflow per order with rate-limit pacing and 429 backoff, writes a terminal
status back, and sends one Telegram summary per batch.

HTTP calls are modelled as total functions returning responses (status code
plus the headers the code reads); the database is a list of order rows; the
remote side is an oracle giving the responses each call would receive.
-/

namespace Uptrack

/-- Persisted order status (`orders.status` column): `pending`, `fulfilled`
or `failed`. -/
inductive Status where
  | pending
  | fulfilled
  | failed
deriving DecidableEq, Repr

/-- A persisted row of the `orders` table, as fetched by
`SELECT * FROM orders WHERE status = 'pending'` in `process_orders`.
`scheduled_time` is the optional TIMESTAMPTZ column (modelled as an integer
timestamp); the worker reads `id`, `order_name`, `tracking_number` and
`carrier` from the row. -/
structure Order where
  id : Nat
  order_name : String
  tracking_number : String
  carrier : String
  status : Status
  scheduled_time : Option Int
deriving DecidableEq, Repr

/-- An HTTP response as `make_api_call` inspects it: the status code, the
optional `X-Shopify-Shop-Api-Call-Limit` header parsed as `current/max`, and
the optional `Retry-After` header parsed as an integer number of seconds. -/
structure Response where
  status_code : Nat
  api_call_limit : Option (Nat × Nat)
  retry_after_header : Option Nat
deriving DecidableEq, Repr

/-- Constant `MIN_SLEEP_TIME = 0.5` seconds (worker.py line 116). -/
def MIN_SLEEP_TIME : ℚ := 1/2

/-- Constant `MAX_SLEEP_TIME = 5` seconds (worker.py line 117). -/
def MAX_SLEEP_TIME : ℚ := 5

/-- The pacing sleep performed after every request in `make_api_call`
(worker.py lines 126-138): with the call-limit header present and ratio
`current/max > 0.8`, sleep `min(MAX_SLEEP_TIME, MIN_SLEEP_TIME * ratio * 5)`;
otherwise (ratio at most 0.8, or header absent) sleep `MIN_SLEEP_TIME`. -/
def pacing_sleep (limit : Option (Nat × Nat)) : ℚ :=
  match limit with
  | some (current_calls, max_calls) =>
      if (current_calls : ℚ) / (max_calls : ℚ) > 8/10 then
        min MAX_SLEEP_TIME (MIN_SLEEP_TIME * ((current_calls : ℚ) / (max_calls : ℚ)) * 5)
      else
        MIN_SLEEP_TIME
  | none => MIN_SLEEP_TIME

/-- Value of `int(response.headers.get('Retry-After', 5))` (worker.py line 141). -/
def retry_after_val (r : Response) : Nat :=
  r.retry_after_header.getD 5

/-- Function `make_api_call` (worker.py lines 123-146), driven by the sequence of
responses the remote would return to successive attempts of the identical
request.  Each attempt performs the pacing sleep; a 429 response additionally
sleeps `Retry-After` (default 5) seconds and retries; any other response is
returned.  The Python loop is unbounded; here the response list is the fuel:
`none` means every supplied response was a 429 and the loop is still
retrying.  The result carries the returned response, the chronological list
of sleeps performed, and the number of requests issued. -/
def make_api_call : List Response → Option (Response × List ℚ × Nat)
  | [] => none
  | r :: rest =>
      let p := pacing_sleep r.api_call_limit
      if r.status_code = 429 then
        match make_api_call rest with
        | some (resp, sleeps, attempts) =>
            some (resp, p :: (retry_after_val r : ℚ) :: sleeps, attempts + 1)
        | none => none
      else
        some (r, [p], 1)

/-- Per-store runtime state: connection config plus the per-run mutable
counters, exactly the dictionary value built in `load_stores`
(worker.py lines 34-40). -/
structure StoreState where
  store_url : String
  access_token : String
  success_count : Nat
  failure_count : Nat
  failed_orders : List String
deriving DecidableEq, Repr

/-- The fresh store entry created by `load_stores`: counters start at zero. -/
def store_init (url token : String) : StoreState :=
  ⟨url, token, 0, 0, []⟩

/-- Python's `str.upper()`: upper-case every character (modelled
character-wise over the string's character list, which is what `upper` does
on the ASCII order names this worker handles). -/
def str_upper (s : String) : String :=
  ⟨s.data.map Char.toUpper⟩

/-- Python dict assignment `stores[k] = v`: overwrite an existing key in
place, otherwise append. -/
def dict_insert (m : List (String × StoreState)) (k : String) (v : StoreState) :
    List (String × StoreState) :=
  if (m.lookup k).isSome then
    m.map (fun p => if p.1 = k then (p.1, v) else p)
  else
    m ++ [(k, v)]

/-- Python's `key.split("_")` over the key's character list: underscore-
separated groups, empty groups preserved. -/
def split_on_uscore (cs : List Char) : List (List Char) :=
  match cs with
  | [] => [[]]
  | c :: rest =>
      match split_on_uscore rest with
      | [] => [[c]]
      | grp :: grps =>
          if c = '_' then [] :: grp :: grps else (c :: grp) :: grps

/-- One iteration of the `for key in os.environ` loop of `load_stores`
(worker.py lines 25-42): a key of the form `STORE_<n>_ORDER_PREFIX`
(checked character-wise, `<n>` being `key.split("_")[1]`) with both
`STORE_<n>_STORE_URL` and `STORE_<n>_ACCESS_TOKEN` present and non-empty
adds an entry keyed by the upper-cased prefix value with zeroed counters;
any other key, or a missing/empty URL or token, leaves the map unchanged
(the code only logs an error). -/
def load_stores_step (env : List (String × String))
    (stores : List (String × StoreState)) (kv : String × String) :
    List (String × StoreState) :=
  if ("STORE_".data.isPrefixOf kv.1.data) &&
      ("_ORDER_PREFIX".data.isSuffixOf kv.1.data) then
    let store_number : String := ⟨(split_on_uscore kv.1.data).getD 1 []⟩
    match env.lookup ("STORE_" ++ store_number ++ "_STORE_URL"),
          env.lookup ("STORE_" ++ store_number ++ "_ACCESS_TOKEN") with
    | some store_url, some access_token =>
        if store_url ≠ "" && access_token ≠ "" then
          dict_insert stores (str_upper kv.2) (store_init store_url access_token)
        else
          stores
    | _, _ => stores
  else stores

/-- Function `load_stores` (worker.py lines 23-43) over the process environment,
modelled as an association list of variable names to values. -/
def load_stores (env : List (String × String)) : List (String × StoreState) :=
  env.foldl (load_stores_step env) []

/-- A fulfillment order as returned by the enumerate step: its remote `id`
and `status` string (only `"open"` ones are fulfillable). -/
structure FulfillmentOrder where
  id : Nat
  status : String
deriving DecidableEq, Repr

/-- The remote calls the worker can issue for one order: the order lookup by
name, the fulfillment-orders listing, and a create-fulfillment POST for one
fulfillment order id. -/
inductive RemoteCall where
  | lookup
  | enumerate
  | create (fulfillment_order_id : Nat)
deriving DecidableEq, Repr

/-- Oracle for the remote side while processing one order: the outcome each
pipeline step would observe.  `raises` models an arbitrary exception thrown
inside the per-order `try` block (placed here before the first remote call);
`lookup_orders` is the list of remote order ids in the lookup response body,
`fulfillment_orders` the enumerate response body, and `create_status fo_id`
the status code of the create call for that fulfillment order. -/
structure RemoteOracle where
  raises : Bool
  lookup_status : Nat
  lookup_orders : List Nat
  enumerate_status : Nat
  fulfillment_orders : List FulfillmentOrder
  create_status : Nat → Nat

/-- Key `order_name[:2].upper()` (worker.py line 98): the routing key is the
upper-cased first two characters of the order name. -/
def routing_key (order_name : String) : String :=
  str_upper ⟨order_name.data.take 2⟩

/-- Update `store['success_count'] += 1` on the store keyed `k`. -/
def bump_success (stores : List (String × StoreState)) (k : String) :
    List (String × StoreState) :=
  stores.map (fun p =>
    if p.1 = k then (p.1, { p.2 with success_count := p.2.success_count + 1 }) else p)

/-- Update `store['failure_count'] += 1` and `store['failed_orders'].append(order_name)`
on the store keyed `k`. -/
def bump_failure (stores : List (String × StoreState)) (k : String)
    (order_name : String) : List (String × StoreState) :=
  stores.map (fun p =>
    if p.1 = k then
      (p.1, { p.2 with failure_count := p.2.failure_count + 1,
                       failed_orders := p.2.failed_orders ++ [order_name] })
    else p)

/-- One iteration of the `for fo in fulfillment_orders` loop
(worker.py lines 205-243): a non-`open` fulfillment order is skipped with no
create call; otherwise a create call is issued and a 201 response sets the
`order_fulfilled` flag.  The accumulator is the flag together with the create
calls issued so far. -/
def fulfill_step (orc : RemoteOracle) (acc : Bool × List RemoteCall)
    (fo : FulfillmentOrder) : Bool × List RemoteCall :=
  if fo.status ≠ "open" then acc
  else if orc.create_status fo.id = 201 then
    (true, acc.2 ++ [RemoteCall.create fo.id])
  else
    (acc.1, acc.2 ++ [RemoteCall.create fo.id])

/-- The whole create loop, starting from `order_fulfilled = False`. -/
def fulfill_loop (orc : RemoteOracle) (fos : List FulfillmentOrder) :
    Bool × List RemoteCall :=
  fos.foldl (fulfill_step orc) (false, [])

/-- Result of processing one order row: the terminal status written back,
the remote calls issued for it, and the updated store map. -/
structure OrderResult where
  written : Status
  calls : List RemoteCall
  stores : List (String × StoreState)

/-- The per-order body of `process_orders` (worker.py lines 91-265): route by
the two-character upper-cased routing key (no match ⇒ `failed` with no remote
call and no store counters touched); then the three-step pipeline — lookup
(non-200 or empty ⇒ `failed`), enumerate (non-200 or empty ⇒ `failed`),
create loop over fulfillment orders; `order_fulfilled` ⇒ `fulfilled` and the
store's success counter, otherwise `failed` and the store's failure counter.
An exception inside the `try` (oracle `raises`) is caught and converted to
`failed` with the store's failure counter. -/
def process_order (stores : List (String × StoreState)) (orc : RemoteOracle)
    (row : Order) : OrderResult :=
  let k := routing_key row.order_name
  match stores.lookup k with
  | none => ⟨Status.failed, [], stores⟩
  | some _ =>
      if orc.raises then
        ⟨Status.failed, [], bump_failure stores k row.order_name⟩
      else if orc.lookup_status ≠ 200 then
        ⟨Status.failed, [RemoteCall.lookup], bump_failure stores k row.order_name⟩
      else if orc.lookup_orders.isEmpty then
        ⟨Status.failed, [RemoteCall.lookup], bump_failure stores k row.order_name⟩
      else if orc.enumerate_status ≠ 200 then
        ⟨Status.failed, [RemoteCall.lookup, RemoteCall.enumerate],
          bump_failure stores k row.order_name⟩
      else if orc.fulfillment_orders.isEmpty then
        ⟨Status.failed, [RemoteCall.lookup, RemoteCall.enumerate],
          bump_failure stores k row.order_name⟩
      else
        let res := fulfill_loop orc orc.fulfillment_orders
        if res.1 then
          ⟨Status.fulfilled, RemoteCall.lookup :: RemoteCall.enumerate :: res.2,
            bump_success stores k⟩
        else
          ⟨Status.failed, RemoteCall.lookup :: RemoteCall.enumerate :: res.2,
            bump_failure stores k row.order_name⟩

/-- State threaded through one batch: the status writes committed so far (in
order), the store map, and the batch totals. -/
structure BatchState where
  writes : List (Nat × Status)
  stores : List (String × StoreState)
  total_successful : Nat
  total_failed : Nat
deriving Repr

/-- The `for order_row in orders` loop (worker.py lines 91-265): every row is
processed with `process_order`, its terminal status is committed, and the
batch totals are incremented (`fulfilled` ⇒ `total_successful`, otherwise
`total_failed`).  Oracles are keyed by the row id. -/
def process_batch (stores : List (String × StoreState))
    (orcs : Nat → RemoteOracle) : List Order → BatchState
  | [] => ⟨[], stores, 0, 0⟩
  | row :: rest =>
      let res := process_order stores (orcs row.id) row
      let tail := process_batch res.stores orcs rest
      ⟨(row.id, res.written) :: tail.writes, tail.stores,
        (if res.written = Status.fulfilled then 1 else 0) + tail.total_successful,
        (if res.written = Status.failed then 1 else 0) + tail.total_failed⟩

/-- Query `SELECT * FROM orders WHERE status = 'pending'` (worker.py line 79):
the fetch filters on `status` alone. -/
def fetch_pending (db : List Order) : List Order :=
  db.filter (fun o => o.status = Status.pending)

/-- Statement `UPDATE orders SET status = %s WHERE id = %s` followed by a commit:
every row with the given id gets the given status. -/
def apply_write (db : List Order) (w : Nat × Status) : List Order :=
  db.map (fun o => if o.id = w.1 then { o with status := w.2 } else o)

/-- Apply a batch's status writes in order. -/
def apply_writes (db : List Order) (ws : List (Nat × Status)) : List Order :=
  ws.foldl apply_write db

/-- One store's block in the summary message (worker.py lines 274-280). -/
structure StoreSummary where
  pfx : String
  success_count : Nat
  failure_count : Nat
  failed_orders : List String
deriving DecidableEq, Repr

/-- The summary message assembled at the end of a batch
(worker.py lines 267-283): batch totals plus a per-store breakdown read from
the store map as it stands when the message is built. -/
structure Summary where
  total_orders : Nat
  total_successful : Nat
  total_failed : Nat
  per_store : List StoreSummary
deriving DecidableEq, Repr

/-- Build the summary from the batch totals and the current store map. -/
def mk_summary (total_orders : Nat) (bs : BatchState) : Summary :=
  ⟨total_orders, bs.total_successful, bs.total_failed,
    bs.stores.map (fun p => ⟨p.1, p.2.success_count, p.2.failure_count, p.2.failed_orders⟩)⟩

/-- Outcome of the `requests.get` call at worker.py line 58: either an HTTP
response carrying a status code, or a transport-level exception raised by
the call (connection error, timeout, DNS failure). -/
inductive TelegramResult where
  | response (status_code : Nat)
  | exc
deriving DecidableEq, Repr

/-- Function `send_telegram_message` (worker.py lines 46-60): with the bot
token or chat id missing or empty, log an error and return (no GET is
issued, so no exception is possible).  Otherwise issue the GET: the function
has no try/except, so a transport-level exception escapes it
(`Except.error`); a received response only has an error logged when its
status is not 200.  The `ok` payload records whether an error was logged. -/
def send_telegram_message (bot_token chat_id : Option String)
    (tg : TelegramResult) : Except Unit Bool :=
  match bot_token, chat_id with
  | some bt, some ci =>
      if bt ≠ "" && ci ≠ "" then
        match tg with
        | TelegramResult.response st => Except.ok (decide (st ≠ 200))
        | TelegramResult.exc => Except.error ()
      else Except.ok true
  | _, _ => Except.ok true

/-- Observable outcome of one iteration of the `while True` poll loop: the
database after the batch's committed writes, the store map, the summary
assembled and handed to the Telegram send (none when the batch was empty and
the worker only slept 30 seconds), whether the send logged a delivery error
(none when nothing was sent or the send raised), and whether an exception
from the send escaped to the outer `except` at worker.py line 285 — which
lies outside the `while True` loop and therefore terminates it. -/
structure CycleOutcome where
  db : List Order
  stores : List (String × StoreState)
  summary : Option Summary
  telegram_error_logged : Option Bool
  aborted : Bool

/-- One iteration of the poll loop (worker.py lines 77-283): fetch pending
rows; if none, sleep and poll again; otherwise process the batch, committing
each terminal status, then build the summary and send it via Telegram.  The
batch's writes are committed before the send, so they persist even when the
send raises; a raising send marks the cycle `aborted`. -/
def run_cycle (bot_token chat_id : Option String) (orcs : Nat → RemoteOracle)
    (tg : TelegramResult) (db : List Order)
    (stores : List (String × StoreState)) : CycleOutcome :=
  let orders := fetch_pending db
  if orders.isEmpty then ⟨db, stores, none, none, false⟩
  else
    let bs := process_batch stores orcs orders
    match send_telegram_message bot_token chat_id tg with
    | Except.ok logged =>
        ⟨apply_writes db bs.writes, bs.stores, some (mk_summary orders.length bs),
          some logged, false⟩
    | Except.error _ =>
        ⟨apply_writes db bs.writes, bs.stores, some (mk_summary orders.length bs),
          none, true⟩

/-- External input to one poll cycle: the rows other components inserted
since the previous poll, the remote oracle for this cycle's orders, and the
outcome of the Telegram GET for this cycle's summary. -/
structure CycleInput where
  inserts : List Order
  orcs : Nat → RemoteOracle
  tg : TelegramResult

/-- A run of successive poll cycles: the store map built once by
`load_stores` before the loop is threaded through unchanged from one cycle to
the next (worker.py line 74 and the `while True` at line 77).  An aborted
cycle (exception escaping to the handler outside the loop) ends the run:
later cycles never execute.  Returns the final database, the final store
map, and each executed cycle's outcome. -/
def run_cycles (bot_token chat_id : Option String) (db : List Order)
    (stores : List (String × StoreState)) :
    List CycleInput → List Order × List (String × StoreState) × List CycleOutcome
  | [] => (db, stores, [])
  | c :: rest =>
      let out := run_cycle bot_token chat_id c.orcs c.tg (db ++ c.inserts) stores
      if out.aborted then (out.db, out.stores, [out])
      else
        let tail := run_cycles bot_token chat_id out.db out.stores rest
        (tail.1, tail.2.1, out :: tail.2.2)

/-- The sleeps performed for an initial run of 429 responses: for each one,
the pacing sleep followed by the `Retry-After` backoff. -/
def backoff_sleeps (pre : List Response) : List ℚ :=
  pre.flatMap (fun x => [pacing_sleep x.api_call_limit, (retry_after_val x : ℚ)])

theorem make_api_call_ne_429 (rs : List Response) (res : Response × List ℚ × Nat)
    (h : make_api_call rs = some res) : res.1.status_code ≠ 429 := by
  induction rs generalizing res with
  | nil => simp [make_api_call] at h
  | cons x xs ih =>
      by_cases hx : x.status_code = 429
      · rcases hrec : make_api_call xs with _ | ⟨resp, sleeps, att⟩
        · simp [make_api_call, hx, hrec] at h
        · have hcall : make_api_call (x :: xs) =
              some (resp, pacing_sleep x.api_call_limit ::
                (retry_after_val x : ℚ) :: sleeps, att + 1) := by
            simp [make_api_call, hx, hrec]
          rw [hcall] at h
          cases h
          exact ih (resp, sleeps, att) hrec
      · have hcall : make_api_call (x :: xs) =
            some (x, [pacing_sleep x.api_call_limit], 1) := by
          simp [make_api_call, hx]
        rw [hcall] at h
        cases h
        exact hx

theorem make_api_call_none_iff (rs : List Response) :
    make_api_call rs = none ↔ ∀ r ∈ rs, r.status_code = 429 := by
  induction rs with
  | nil => simp [make_api_call]
  | cons x xs ih =>
      by_cases hx : x.status_code = 429
      · rcases hrec : make_api_call xs with _ | ⟨resp, sleeps, att⟩
        · have hall := ih.mp hrec
          simp [make_api_call, hx, hrec, List.forall_mem_cons]
          exact hall
        · have hnot : ¬ ∀ r ∈ xs, r.status_code = 429 := by
            intro hall
            rw [ih.mpr hall] at hrec
            exact Option.noConfusion hrec
          push_neg at hnot
          simp [make_api_call, hx, hrec, List.forall_mem_cons]
          exact hnot
      · simp [make_api_call, hx, List.forall_mem_cons]

theorem make_api_call_retry_run (pre : List Response) (r : Response)
    (post : List Response) (hpre : ∀ x ∈ pre, x.status_code = 429)
    (hr : r.status_code ≠ 429) :
    make_api_call (pre ++ r :: post) =
      some (r, backoff_sleeps pre ++ [pacing_sleep r.api_call_limit],
        pre.length + 1) := by
  induction pre with
  | nil => simp [make_api_call, hr, backoff_sleeps]
  | cons x xs ih =>
      have hx : x.status_code = 429 := hpre x (by simp)
      have ih2 := ih (fun y hy => hpre y (by simp [hy]))
      simp [make_api_call, hx, ih2, backoff_sleeps]

/-- C3: for every sequence of remote responses, `make_api_call` either
returns a non-429 response or is still retrying when the supplied responses
run out; it never returns a 429 to the caller, and for each 429 received it
performs the pacing sleep and then sleeps exactly the `Retry-After` value
(5 when the header is absent) before issuing one further request. -/
theorem C3_call_never_returns_429 :
    (∀ (rs : List Response) (res : Response × List ℚ × Nat),
        make_api_call rs = some res → res.1.status_code ≠ 429) ∧
    (∀ rs : List Response,
        make_api_call rs = none ↔ ∀ r ∈ rs, r.status_code = 429) ∧
    (∀ (pre : List Response) (r : Response) (post : List Response),
        (∀ x ∈ pre, x.status_code = 429) → r.status_code ≠ 429 →
        make_api_call (pre ++ r :: post) =
          some (r, backoff_sleeps pre ++ [pacing_sleep r.api_call_limit],
            pre.length + 1)) :=
  ⟨make_api_call_ne_429, make_api_call_none_iff, make_api_call_retry_run⟩

/-- Witness for C3 at a concrete input: one 429 carrying `Retry-After: 7`
followed by a 200; the call returns the 200 after sleeping the pacing sleep,
the 7-second backoff, and the final pacing sleep, having issued 2 requests. -/
theorem C3_call_never_returns_429_witness :
    make_api_call [⟨429, none, some 7⟩, ⟨200, none, none⟩] =
      some (⟨200, none, none⟩, [1/2, 7, 1/2], 2) := by
  have h := C3_call_never_returns_429.2.2 [⟨429, none, some 7⟩]
    ⟨200, none, none⟩ [] (by decide) (by decide)
  rw [show ([⟨429, none, some 7⟩, ⟨200, none, none⟩] : List Response) =
    [⟨429, none, some 7⟩] ++ ⟨200, none, none⟩ :: [] from rfl, h]
  norm_num [backoff_sleeps, pacing_sleep, retry_after_val, MIN_SLEEP_TIME]

/-- C4: the pacing sleep equals `MIN_SLEEP_TIME` when the call-budget ratio
is at most 0.8 and `min MAX_SLEEP_TIME (MIN_SLEEP_TIME * ratio * 5)` when the
ratio exceeds 0.8; with the header absent it is `MIN_SLEEP_TIME`
unconditionally; and every attempt of `make_api_call` performs its pacing
sleep first, whatever the status code of the response. -/
theorem C4_rate_pacing (c m : Nat) (hm : 0 < m) :
    ((c : ℚ) / (m : ℚ) ≤ 8/10 → pacing_sleep (some (c, m)) = MIN_SLEEP_TIME) ∧
    (8/10 < (c : ℚ) / (m : ℚ) →
      pacing_sleep (some (c, m)) =
        min MAX_SLEEP_TIME (MIN_SLEEP_TIME * ((c : ℚ) / (m : ℚ)) * 5)) ∧
    pacing_sleep none = MIN_SLEEP_TIME ∧
    (∀ (r : Response) (rs : List Response) (res : Response × List ℚ × Nat),
        make_api_call (r :: rs) = some res →
        ∃ tl, res.2.1 = pacing_sleep r.api_call_limit :: tl) := by
  refine ⟨?_, ?_, rfl, ?_⟩
  · intro h
    simp [pacing_sleep, not_lt.mpr h]
  · intro h
    simp [pacing_sleep, h]
  · intro r rs res h
    by_cases hx : r.status_code = 429
    · rcases hrec : make_api_call rs with _ | ⟨resp, sleeps, att⟩
      · simp [make_api_call, hx, hrec] at h
      · have hcall : make_api_call (r :: rs) =
            some (resp, pacing_sleep r.api_call_limit ::
              (retry_after_val r : ℚ) :: sleeps, att + 1) := by
          simp [make_api_call, hx, hrec]
        rw [hcall] at h
        cases h
        exact ⟨_, rfl⟩
    · have hcall : make_api_call (r :: rs) =
          some (r, [pacing_sleep r.api_call_limit], 1) := by
        simp [make_api_call, hx]
      rw [hcall] at h
      cases h
      exact ⟨[], rfl⟩

/-- Witness for C4 at a concrete input: with the header reading `39/40`
(ratio 0.975) the pacing sleep is `min 5 (0.5 * 0.975 * 5) = 39/16` seconds,
and with `20/40` (ratio 0.5) it is `MIN_SLEEP_TIME`. -/
theorem C4_rate_pacing_witness :
    pacing_sleep (some (39, 40)) = 39/16 ∧ pacing_sleep (some (20, 40)) = 1/2 := by
  constructor
  · have h := (C4_rate_pacing 39 40 (by decide)).2.1 (by norm_num)
    rw [h]
    norm_num [MAX_SLEEP_TIME, MIN_SLEEP_TIME]
  · have h := (C4_rate_pacing 20 40 (by decide)).1 (by norm_num)
    rw [h, MIN_SLEEP_TIME]

theorem fulfill_fold_flag (orc : RemoteOracle) (fos : List FulfillmentOrder)
    (b : Bool) (cs : List RemoteCall) :
    (fos.foldl (fulfill_step orc) (b, cs)).1 =
      (b || fos.any (fun fo => decide (fo.status = "open") &&
        decide (orc.create_status fo.id = 201))) := by
  induction fos generalizing b cs with
  | nil => simp
  | cons fo rest ih =>
      by_cases ho : fo.status = "open"
      · by_cases hc : orc.create_status fo.id = 201 <;>
          simp [fulfill_step, ho, hc, ih]
      · simp [fulfill_step, ho, ih]

theorem fulfill_fold_calls (orc : RemoteOracle) (fos : List FulfillmentOrder)
    (b : Bool) (cs : List RemoteCall) :
    (fos.foldl (fulfill_step orc) (b, cs)).2 =
      cs ++ (fos.filter (fun fo => decide (fo.status = "open"))).map
        (fun fo => RemoteCall.create fo.id) := by
  induction fos generalizing b cs with
  | nil => simp
  | cons fo rest ih =>
      by_cases ho : fo.status = "open"
      · by_cases hc : orc.create_status fo.id = 201 <;>
          simp [fulfill_step, ho, hc, ih]
      · simp [fulfill_step, ho, ih]

theorem process_order_written_ne_pending (stores : List (String × StoreState))
    (orc : RemoteOracle) (row : Order) :
    (process_order stores orc row).written ≠ Status.pending := by
  unfold process_order
  cases hl2 : stores.lookup (routing_key row.order_name) with
  | none => simp [hl2]
  | some s => (repeat' split) <;> simp [hl2] <;> split <;> simp

/-- C2: with the locate and enumerate steps succeeding (200 with a non-empty
body each) and no exception, the order is written `fulfilled` iff some
enumerated fulfillment order with status `"open"` has a 201 create response;
the status is always terminal; and a create call is issued for a fulfillment
order id iff an enumerated fulfillment order with that id is `"open"` — so
skipped non-open ones get no create call and non-201 responses do not by
themselves fail the order. -/
theorem C2_fulfillment_semantics (stores : List (String × StoreState))
    (orc : RemoteOracle) (row : Order)
    (hfound : (stores.lookup (routing_key row.order_name)).isSome = true)
    (hraise : orc.raises = false) (hl : orc.lookup_status = 200)
    (hlo : orc.lookup_orders ≠ []) (he : orc.enumerate_status = 200)
    (hfo : orc.fulfillment_orders ≠ []) :
    ((process_order stores orc row).written = Status.fulfilled ↔
      ∃ fo ∈ orc.fulfillment_orders, fo.status = "open" ∧
        orc.create_status fo.id = 201) ∧
    ((process_order stores orc row).written = Status.fulfilled ∨
      (process_order stores orc row).written = Status.failed) ∧
    (∀ fid : Nat,
      RemoteCall.create fid ∈ (process_order stores orc row).calls ↔
        ∃ fo ∈ orc.fulfillment_orders, fo.id = fid ∧ fo.status = "open") := by
  obtain ⟨s, hs⟩ := Option.isSome_iff_exists.mp hfound
  have h1 : orc.lookup_orders.isEmpty = false := by
    simpa [List.isEmpty_iff] using hlo
  have h2 : orc.fulfillment_orders.isEmpty = false := by
    simpa [List.isEmpty_iff] using hfo
  have hflag := fulfill_fold_flag orc orc.fulfillment_orders false []
  have hcalls := fulfill_fold_calls orc orc.fulfillment_orders false []
  by_cases hany : orc.fulfillment_orders.any (fun fo =>
      decide (fo.status = "open") && decide (orc.create_status fo.id = 201)) = true
  · have hex : ∃ fo ∈ orc.fulfillment_orders, fo.status = "open" ∧
        orc.create_status fo.id = 201 := by
      simpa [List.any_eq_true] using hany
    refine ⟨?_, ?_, ?_⟩
    · simp only [process_order, hs, hraise, hl, he, h1, h2]
      simp [fulfill_loop, hflag, hany]
      exact hex
    · left
      simp only [process_order, hs, hraise, hl, he, h1, h2]
      simp [fulfill_loop, hflag, hany]
    · intro fid
      simp only [process_order, hs, hraise, hl, he, h1, h2]
      simp [fulfill_loop, hflag, hcalls, hany, List.mem_filter]
      tauto
  · have hnone : ¬ ∃ fo ∈ orc.fulfillment_orders, fo.status = "open" ∧
        orc.create_status fo.id = 201 := by
      intro hex
      exact hany (by simpa [List.any_eq_true] using hex)
    refine ⟨?_, ?_, ?_⟩
    · simp only [process_order, hs, hraise, hl, he, h1, h2]
      simp [fulfill_loop, hflag, hany]
      intro fo hmem hopen hcreate
      exact hnone ⟨fo, hmem, hopen, hcreate⟩
    · right
      simp only [process_order, hs, hraise, hl, he, h1, h2]
      simp [fulfill_loop, hflag, hany]
    · intro fid
      simp only [process_order, hs, hraise, hl, he, h1, h2]
      simp [fulfill_loop, hflag, hcalls, hany, List.mem_filter]
      tauto

/-- Oracle for the partial-success scenario: remote order 999 with an open
fulfillment order 5 whose create returns 201, an open fulfillment order 6
whose create returns 500, and a non-open fulfillment order 7. -/
def mixed_result_oracle : RemoteOracle :=
  ⟨false, 200, [999], 200, [⟨5, "open"⟩, ⟨6, "open"⟩, ⟨7, "closed"⟩],
    fun fid => if fid = 5 then 201 else 500⟩

/-- The pending row of the worked examples. -/
def example_row : Order :=
  ⟨1, "G12345", "00340434518424504153", "DHL", Status.pending, none⟩

/-- A store map whose single entry is keyed by the two-character routing key
of `example_row`. -/
def example_stores : List (String × StoreState) :=
  [("G1", store_init "https://shop.example" "tok")]

/-- Witness for C2: in the partial-success scenario (one open fulfillment
order returning 201, one open returning 500, one closed) the order is
`fulfilled`, and create calls were issued exactly for the two open ones. -/
theorem C2_fulfillment_semantics_witness :
    (process_order example_stores mixed_result_oracle example_row).written =
      Status.fulfilled := by
  exact (C2_fulfillment_semantics example_stores mixed_result_oracle example_row
    (by decide) (by decide) (by decide) (by decide) (by decide) (by decide)).1.mpr
    ⟨⟨5, "open"⟩, by decide, by decide, by decide⟩

/-- C7: an order whose two-character routing key matches no configured store
is written `failed` with no remote call issued and the store map untouched. -/
theorem C7_routing_reject (stores : List (String × StoreState))
    (orc : RemoteOracle) (row : Order)
    (h : stores.lookup (routing_key row.order_name) = none) :
    (process_order stores orc row).written = Status.failed ∧
    (process_order stores orc row).calls = [] ∧
    (process_order stores orc row).stores = stores := by
  simp [process_order, h]

/-- Witness for C7: an order named `ZZ123` against a store map containing
only the key `G1` is failed with zero remote calls. -/
theorem C7_routing_reject_witness :
    (process_order example_stores mixed_result_oracle
      ⟨7, "ZZ123", "tn", "DHL", Status.pending, none⟩).written = Status.failed ∧
    (process_order example_stores mixed_result_oracle
      ⟨7, "ZZ123", "tn", "DHL", Status.pending, none⟩).calls = [] ∧
    (process_order example_stores mixed_result_oracle
      ⟨7, "ZZ123", "tn", "DHL", Status.pending, none⟩).stores = example_stores :=
  C7_routing_reject example_stores mixed_result_oracle
    ⟨7, "ZZ123", "tn", "DHL", Status.pending, none⟩ (by decide)

theorem process_batch_writes_fst (stores : List (String × StoreState))
    (orcs : Nat → RemoteOracle) (rows : List Order) :
    (process_batch stores orcs rows).writes.map Prod.fst = rows.map Order.id := by
  induction rows generalizing stores with
  | nil => rfl
  | cons row rest ih => simp [process_batch, ih]

theorem process_batch_writes_not_pending (stores : List (String × StoreState))
    (orcs : Nat → RemoteOracle) (rows : List Order) :
    ∀ w ∈ (process_batch stores orcs rows).writes, w.2 ≠ Status.pending := by
  induction rows generalizing stores with
  | nil => simp [process_batch]
  | cons row rest ih =>
      intro w hw
      simp only [process_batch, List.mem_cons] at hw
      rcases hw with h | h
      · rw [h]
        exact process_order_written_ne_pending stores (orcs row.id) row
      · exact ih _ w h

theorem process_batch_row_write (stores : List (String × StoreState))
    (orcs : Nat → RemoteOracle) (rows : List Order) :
    ∀ row ∈ rows, ∃ s, (row.id, s) ∈ (process_batch stores orcs rows).writes ∧
      s ≠ Status.pending := by
  induction rows generalizing stores with
  | nil => simp
  | cons row rest ih =>
      intro r hr
      rcases List.mem_cons.mp hr with h | h
      · subst h
        exact ⟨(process_order stores (orcs r.id) r).written,
          by simp [process_batch],
          process_order_written_ne_pending stores (orcs r.id) r⟩
      · obtain ⟨s, hs, hsp⟩ :=
          ih (process_order stores (orcs row.id) row).stores r h
        exact ⟨s, by simp [process_batch, hs], hsp⟩

/-- The final value of one database row after a list of status writes has
been applied: each write whose id matches replaces the status. -/
def write_fold (o : Order) (ws : List (Nat × Status)) : Order :=
  ws.foldl (fun o w => if o.id = w.1 then { o with status := w.2 } else o) o

theorem apply_writes_eq_map (ws : List (Nat × Status)) (db : List Order) :
    apply_writes db ws = db.map (fun o => write_fold o ws) := by
  induction ws generalizing db with
  | nil => simp [apply_writes, write_fold]
  | cons w ws ih =>
      have h0 : apply_writes db (w :: ws) = apply_writes (apply_write db w) ws := rfl
      rw [h0, ih, apply_write, List.map_map]
      rfl

theorem write_fold_id (o : Order) (ws : List (Nat × Status)) :
    (write_fold o ws).id = o.id := by
  induction ws generalizing o with
  | nil => rfl
  | cons w ws ih =>
      have h0 : write_fold o (w :: ws) =
          write_fold (if o.id = w.1 then { o with status := w.2 } else o) ws := rfl
      rw [h0]
      by_cases h : o.id = w.1 <;> simp [h, ih]

theorem write_fold_skip (o : Order) (ws : List (Nat × Status))
    (h : ∀ w ∈ ws, w.1 ≠ o.id) : write_fold o ws = o := by
  induction ws generalizing o with
  | nil => rfl
  | cons w ws ih =>
      have hw : w.1 ≠ o.id := h w (by simp)
      have h0 : write_fold o (w :: ws) =
          write_fold (if o.id = w.1 then { o with status := w.2 } else o) ws := rfl
      rw [h0, if_neg (fun hh => hw hh.symm)]
      exact ih o (fun w' hw' => h w' (by simp [hw']))

theorem write_fold_hit (ws : List (Nat × Status)) (o : Order) (i : Nat)
    (s : Status) (hmem : (i, s) ∈ ws) (hnod : (ws.map Prod.fst).Nodup)
    (ho : o.id = i) : (write_fold o ws).status = s := by
  induction ws generalizing o with
  | nil => cases hmem
  | cons w ws ih =>
      have h0 : write_fold o (w :: ws) =
          write_fold (if o.id = w.1 then { o with status := w.2 } else o) ws := rfl
      rcases List.mem_cons.mp hmem with heq | hmem'
      · have hw1 : w.1 = i := by rw [← heq]
        have hw2 : w.2 = s := by rw [← heq]
        rw [h0, if_pos (by rw [ho, hw1])]
        have hnotin : ∀ w' ∈ ws, w'.1 ≠ i := by
          intro w' hw' hcontra
          have : w.1 ∈ ws.map Prod.fst := by
            rw [hw1, ← hcontra]
            exact List.mem_map_of_mem Prod.fst hw'
          exact (List.nodup_cons.mp hnod).1 this
        rw [write_fold_skip _ ws (by
          intro w' hw'
          simpa [ho] using hnotin w' hw')]
        simpa using hw2
      · have hne : w.1 ≠ i := by
          intro hcontra
          have : w.1 ∈ ws.map Prod.fst := by
            rw [hcontra]
            exact List.mem_map_of_mem Prod.fst hmem'
          exact (List.nodup_cons.mp hnod).1 this
        rw [h0, if_neg (by rw [ho]; exact fun hh => hne hh.symm)]
        exact ih o hmem' (List.nodup_cons.mp hnod).2 ho

theorem run_cycle_db (bot ci : Option String) (orcs : Nat → RemoteOracle)
    (tg : TelegramResult) (db : List Order)
    (stores : List (String × StoreState)) :
    (run_cycle bot ci orcs tg db stores).db =
      if (fetch_pending db).isEmpty then db
      else apply_writes db
        (process_batch stores orcs (fetch_pending db)).writes := by
  unfold run_cycle
  by_cases he : (fetch_pending db).isEmpty
  · simp [he]
  · rcases hsend : send_telegram_message bot ci tg with _ | logged <;>
      simp [he, hsend]

theorem run_cycle_stores (bot ci : Option String) (orcs : Nat → RemoteOracle)
    (tg : TelegramResult) (db : List Order)
    (stores : List (String × StoreState)) :
    (run_cycle bot ci orcs tg db stores).stores =
      if (fetch_pending db).isEmpty then stores
      else (process_batch stores orcs (fetch_pending db)).stores := by
  unfold run_cycle
  by_cases he : (fetch_pending db).isEmpty
  · simp [he]
  · rcases hsend : send_telegram_message bot ci tg with _ | logged <;>
      simp [he, hsend]

/-- C1: the worker only ever writes `fulfilled` or `failed` — never
`pending` — and after one poll cycle every row that was `pending` in the
fetched database carries a terminal status: the fetch selects only
`pending` rows and each of them receives exactly one terminal write. -/
theorem C1_terminal_after_batch (bot ci : Option String)
    (orcs : Nat → RemoteOracle) (tg : TelegramResult) (db : List Order)
    (stores : List (String × StoreState)) (hids : (db.map Order.id).Nodup) :
    (∀ rows : List Order, ∀ w ∈ (process_batch stores orcs rows).writes,
        w.2 ≠ Status.pending) ∧
    (∀ o ∈ db, o.status = Status.pending →
      ∀ o2 ∈ (run_cycle bot ci orcs tg db stores).db, o2.id = o.id →
        o2.status = Status.fulfilled ∨ o2.status = Status.failed) := by
  refine ⟨fun rows => process_batch_writes_not_pending stores orcs rows, ?_⟩
  intro o ho hpend o2 ho2 hid
  have hofetch : o ∈ fetch_pending db := by
    simp [fetch_pending, List.mem_filter, ho, hpend]
  have hne : (fetch_pending db).isEmpty = false := by
    rcases hemp : (fetch_pending db).isEmpty with _ | _
    · rfl
    · rw [List.isEmpty_iff.mp hemp] at hofetch
      cases hofetch
  have hdb : (run_cycle bot ci orcs tg db stores).db =
      apply_writes db (process_batch stores orcs (fetch_pending db)).writes := by
    simp [run_cycle_db, hne]
  obtain ⟨s, hsmem, hsp⟩ :=
    process_batch_row_write stores orcs (fetch_pending db) o hofetch
  have hnod : ((process_batch stores orcs (fetch_pending db)).writes.map
      Prod.fst).Nodup := by
    rw [process_batch_writes_fst]
    exact ((List.filter_sublist db).map Order.id).nodup hids
  rw [hdb, apply_writes_eq_map] at ho2
  obtain ⟨o3, ho3, ho3eq⟩ := List.mem_map.mp ho2
  have ho3id : o3.id = o.id := by
    rw [← hid, ← ho3eq, write_fold_id]
  have hstat : o2.status = s := by
    rw [← ho3eq]
    exact write_fold_hit _ o3 o.id s (by simpa using hsmem) hnod ho3id
  rcases s with _ | _ | _
  · exact absurd rfl hsp
  · exact Or.inl hstat
  · exact Or.inr hstat

/-- The oracle map used in concrete runs: every order id gets the
partial-success oracle. -/
def example_orcs : Nat → RemoteOracle :=
  fun _ => mixed_result_oracle

/-- Witness for C1 at a concrete input: a two-row database (one matching
pending order, one pending order with an unconfigured routing key) after one
cycle carries terminal statuses on both rows. -/
theorem C1_terminal_after_batch_witness :
    (⟨1, "G12345", "00340434518424504153", "DHL", Status.fulfilled, none⟩ :
      Order).status = Status.fulfilled ∨
    (⟨1, "G12345", "00340434518424504153", "DHL", Status.fulfilled, none⟩ :
      Order).status = Status.failed := by
  exact (C1_terminal_after_batch (some "b") (some "c") example_orcs
    (TelegramResult.response 200)
    [example_row, ⟨7, "ZZ123", "tn", "DHL", Status.pending, none⟩]
    example_stores (by decide)).2 example_row (by decide) (by decide)
    ⟨1, "G12345", "00340434518424504153", "DHL", Status.fulfilled, none⟩
    (by decide) (by decide)

theorem process_order_raises_failed (stores : List (String × StoreState))
    (orc : RemoteOracle) (row : Order) (h : orc.raises = true) :
    (process_order stores orc row).written = Status.failed := by
  unfold process_order
  cases hl2 : stores.lookup (routing_key row.order_name) with
  | none => simp [hl2]
  | some s => simp [hl2, h]

theorem process_batch_append_writes (stores : List (String × StoreState))
    (orcs : Nat → RemoteOracle) (xs ys : List Order) :
    (process_batch stores orcs (xs ++ ys)).writes =
      (process_batch stores orcs xs).writes ++
        (process_batch (process_batch stores orcs xs).stores orcs ys).writes := by
  induction xs generalizing stores with
  | nil => simp [process_batch]
  | cons x xs ih => simp [process_batch, ih]

/-- C8: an exception raised while processing one order of a batch is caught
at the order boundary — that order is written `failed`, and every order
before and after it in the batch still receives its own write (one write per
row, in batch order). -/
theorem C8_exception_isolation (stores : List (String × StoreState))
    (orcs : Nat → RemoteOracle) (pre : List Order) (rk : Order)
    (post : List Order) (hr : (orcs rk.id).raises = true) :
    ∃ ws1 ws2,
      (process_batch stores orcs (pre ++ rk :: post)).writes =
        ws1 ++ (rk.id, Status.failed) :: ws2 ∧
      ws1.map Prod.fst = pre.map Order.id ∧
      ws2.map Prod.fst = post.map Order.id := by
  refine ⟨(process_batch stores orcs pre).writes,
    (process_batch (process_order (process_batch stores orcs pre).stores
      (orcs rk.id) rk).stores orcs post).writes, ?_, ?_, ?_⟩
  · rw [process_batch_append_writes]
    have hcons : (process_batch (process_batch stores orcs pre).stores orcs
        (rk :: post)).writes =
        (rk.id, (process_order (process_batch stores orcs pre).stores
          (orcs rk.id) rk).written) ::
        (process_batch (process_order (process_batch stores orcs pre).stores
          (orcs rk.id) rk).stores orcs post).writes := rfl
    rw [hcons, process_order_raises_failed _ _ _ hr]
  · exact process_batch_writes_fst _ orcs pre
  · exact process_batch_writes_fst _ orcs post

/-- An oracle whose processing raises an exception inside the `try` block. -/
def raising_oracle : RemoteOracle :=
  ⟨true, 200, [999], 200, [⟨5, "open"⟩], fun _ => 201⟩

/-- Oracle map where order id 2 raises and every other order succeeds. -/
def mixed_orcs : Nat → RemoteOracle :=
  fun i => if i = 2 then raising_oracle else mixed_result_oracle

/-- Witness for C8 at a concrete input: in a batch of three orders whose
middle one (id 2) raises, the middle write is `failed` and the surrounding
orders still receive their writes. -/
theorem C8_exception_isolation_witness :
    ∃ ws1 ws2,
      (process_batch example_stores mixed_orcs
        [example_row, ⟨2, "G17777", "tn", "DHL", Status.pending, none⟩,
          ⟨3, "G18888", "tn", "DHL", Status.pending, none⟩]).writes =
        ws1 ++ (2, Status.failed) :: ws2 ∧
      ws1.map Prod.fst = [1] ∧ ws2.map Prod.fst = [3] := by
  have h := C8_exception_isolation example_stores mixed_orcs [example_row]
    ⟨2, "G17777", "tn", "DHL", Status.pending, none⟩
    [⟨3, "G18888", "tn", "DHL", Status.pending, none⟩] (by decide)
  simpa using h

/-- C10: the pending fetch selects a row iff it is in the database with
status `pending` — the `scheduled_time` column never influences the
selection: rewriting every row's `scheduled_time` arbitrarily commutes with
the fetch. -/
theorem C10_fetch_ignores_scheduled_time :
    (∀ (db : List Order) (o : Order),
        o ∈ fetch_pending db ↔ o ∈ db ∧ o.status = Status.pending) ∧
    (∀ (db : List Order) (f : Order → Option Int),
        fetch_pending (db.map (fun o => { o with scheduled_time := f o })) =
          (fetch_pending db).map (fun o => { o with scheduled_time := f o })) := by
  constructor
  · intro db o
    simp [fetch_pending, List.mem_filter]
  · intro db f
    induction db with
    | nil => rfl
    | cons o rest ih =>
        by_cases h : o.status = Status.pending <;>
          simp [fetch_pending, List.filter_cons, h] at ih ⊢ <;> exact ih

/-- Witness for C10 at a concrete input: a pending order whose
`scheduled_time` lies far in the future is still selected by the fetch. -/
theorem C10_fetch_ignores_scheduled_time_witness :
    ({ example_row with scheduled_time := some 99999999 } : Order) ∈
      fetch_pending [{ example_row with scheduled_time := some 99999999 }] := by
  exact (C10_fetch_ignores_scheduled_time.1
    [{ example_row with scheduled_time := some 99999999 }]
    { example_row with scheduled_time := some 99999999 }).mpr
    ⟨by decide, by decide⟩

/-- Oracle of the end-to-end example of the spec: lookup finds remote order
999, enumeration returns the single open fulfillment order 111, and the
create call returns 201. -/
def lone_open_oracle : RemoteOracle :=
  ⟨false, 200, [999], 200, [⟨111, "open"⟩], fun _ => 201⟩

/-- C5 counterexample: with the tenant configured under prefix `G` — as the
claim states — the worker routes `G12345` by its FIRST TWO characters
(`G1`), finds no store, and writes `failed` with the store counters
untouched; the claimed `fulfilled` outcome and success-count increment do
not happen. -/
theorem C5_counterexample :
    (process_order [("G", store_init "https://shop.example" "tok")]
      lone_open_oracle example_row).written = Status.failed ∧
    (process_order [("G", store_init "https://shop.example" "tok")]
      lone_open_oracle example_row).stores =
      [("G", store_init "https://shop.example" "tok")] ∧
    (process_order [("G", store_init "https://shop.example" "tok")]
      lone_open_oracle example_row).calls = [] := by
  decide

/-- C5 amended: the same end-to-end example with the tenant keyed by the
two-character routing key `G1` of `G12345`: the worker issues the lookup,
enumerate and one create call for fulfillment order 111, writes `fulfilled`,
and increments that tenant's success counter from 0 to 1. -/
theorem C5_end_to_end :
    (process_order example_stores lone_open_oracle example_row).written =
      Status.fulfilled ∧
    ((process_order example_stores lone_open_oracle example_row).stores.lookup
      "G1").map StoreState.success_count = some 1 ∧
    (process_order example_stores lone_open_oracle example_row).calls =
      [RemoteCall.lookup, RemoteCall.enumerate, RemoteCall.create 111] := by
  decide

theorem send_telegram_response_ok (bot ci : Option String) (st : Nat) :
    ∃ logged, send_telegram_message bot ci (TelegramResult.response st) =
      Except.ok logged := by
  rcases bot with _ | bt <;> rcases ci with _ | cid
  · exact ⟨true, rfl⟩
  · exact ⟨true, rfl⟩
  · exact ⟨true, rfl⟩
  · by_cases hb : bt ≠ "" && cid ≠ ""
    · refine ⟨decide (st ≠ 200), ?_⟩
      unfold send_telegram_message
      dsimp only
      rw [if_pos hb]
    · refine ⟨true, ?_⟩
      unfold send_telegram_message
      dsimp only
      rw [if_neg hb]

theorem run_cycle_response_not_aborted (bot ci : Option String)
    (orcs : Nat → RemoteOracle) (st : Nat) (db : List Order)
    (stores : List (String × StoreState)) :
    (run_cycle bot ci orcs (TelegramResult.response st) db stores).aborted =
      false := by
  obtain ⟨logged, hsend⟩ := send_telegram_response_ok bot ci st
  unfold run_cycle
  by_cases he : (fetch_pending db).isEmpty <;> simp [he, hsend]

theorem run_cycle_tg_independent (bot ci : Option String)
    (orcs : Nat → RemoteOracle) (t t' : Nat) (db : List Order)
    (stores : List (String × StoreState)) :
    (run_cycle bot ci orcs (TelegramResult.response t) db stores).db =
      (run_cycle bot ci orcs (TelegramResult.response t') db stores).db ∧
    (run_cycle bot ci orcs (TelegramResult.response t) db stores).stores =
      (run_cycle bot ci orcs (TelegramResult.response t') db stores).stores ∧
    (run_cycle bot ci orcs (TelegramResult.response t) db stores).summary =
      (run_cycle bot ci orcs (TelegramResult.response t') db stores).summary := by
  obtain ⟨l1, h1⟩ := send_telegram_response_ok bot ci t
  obtain ⟨l2, h2⟩ := send_telegram_response_ok bot ci t'
  unfold run_cycle
  by_cases he : (fetch_pending db).isEmpty <;> simp [he, h1, h2]

/-- C9 counterexample: the claim as stated — a failure to deliver the
end-of-batch notification never aborts the worker loop — is false at a
concrete input: in a run of two one-order cycles whose first Telegram send
raises a transport exception (worker.py line 58 has no try/except, and the
outer `except` at line 285 sits outside the `while True` loop), only the
first cycle executes — the second batch is never processed — while the first
batch's write, committed before the send, persists. -/
theorem C9_counterexample :
    (run_cycles (some "bt") (some "ci") [] example_stores
        [⟨[example_row], example_orcs, TelegramResult.exc⟩,
         ⟨[⟨2, "G19999", "t", "DHL", Status.pending, none⟩], example_orcs,
           TelegramResult.response 200⟩]).2.2.length = 1 ∧
    (run_cycles (some "bt") (some "ci") [] example_stores
        [⟨[example_row], example_orcs, TelegramResult.exc⟩,
         ⟨[⟨2, "G19999", "t", "DHL", Status.pending, none⟩], example_orcs,
           TelegramResult.response 200⟩]).1 =
      [⟨1, "G12345", "00340434518424504153", "DHL", Status.fulfilled,
        none⟩] := by
  constructor
  · decide
  · decide

/-- C9 (amended): a Telegram delivery failure that yields an HTTP response
is logged and swallowed — over runs whose sends all receive responses, the
response statuses have no effect on the databases, store maps or summaries,
every cycle executes (one outcome and at most one send per cycle; the batch
is never retried), and a non-200 response only makes `send_telegram_message`
log an error.  A transport-level exception from the send, however, escapes
`send_telegram_message` to the handler outside the loop and ends the run:
the aborting cycle is the run's last, its batch is still not retried, and
that batch's statuses — committed before the send — persist in the final
database. -/
theorem C9_notification_failure_swallowed :
    (∀ (bot ci : Option String) (db : List Order)
        (stores : List (String × StoreState)) (cs : List CycleInput)
        (g g' : CycleInput → Nat),
      (run_cycles bot ci db stores (cs.map (fun c =>
          ⟨c.inserts, c.orcs, TelegramResult.response (g c)⟩))).1 =
        (run_cycles bot ci db stores (cs.map (fun c =>
          ⟨c.inserts, c.orcs, TelegramResult.response (g' c)⟩))).1 ∧
      (run_cycles bot ci db stores (cs.map (fun c =>
          ⟨c.inserts, c.orcs, TelegramResult.response (g c)⟩))).2.1 =
        (run_cycles bot ci db stores (cs.map (fun c =>
          ⟨c.inserts, c.orcs, TelegramResult.response (g' c)⟩))).2.1 ∧
      (run_cycles bot ci db stores (cs.map (fun c =>
          ⟨c.inserts, c.orcs, TelegramResult.response (g c)⟩))).2.2.map
            CycleOutcome.summary =
        (run_cycles bot ci db stores (cs.map (fun c =>
          ⟨c.inserts, c.orcs, TelegramResult.response (g' c)⟩))).2.2.map
            CycleOutcome.summary ∧
      (run_cycles bot ci db stores (cs.map (fun c =>
          ⟨c.inserts, c.orcs, TelegramResult.response (g c)⟩))).2.2.length =
        cs.length) ∧
    (∀ (bot ci : Option String) (t : Nat), t ≠ 200 →
      send_telegram_message bot ci (TelegramResult.response t) =
        Except.ok true) ∧
    (∀ (bt ci : String) (c : CycleInput) (rest : List CycleInput)
        (db : List Order) (stores : List (String × StoreState)),
      bt ≠ "" → ci ≠ "" → c.tg = TelegramResult.exc →
      (fetch_pending (db ++ c.inserts)).isEmpty = false →
      (run_cycles (some bt) (some ci) db stores (c :: rest)).2.2.length = 1 ∧
      (run_cycles (some bt) (some ci) db stores (c :: rest)).1 =
        apply_writes (db ++ c.inserts)
          (process_batch stores c.orcs
            (fetch_pending (db ++ c.inserts))).writes) := by
  refine ⟨?_, ?_, ?_⟩
  · intro bot ci db stores cs g g'
    induction cs generalizing db stores with
    | nil => simp [run_cycles]
    | cons c rest ih =>
        obtain ⟨hdb, hst, hsum⟩ := run_cycle_tg_independent bot ci c.orcs
          (g c) (g' c) (db ++ c.inserts) stores
        have ha1 := run_cycle_response_not_aborted bot ci c.orcs (g c)
          (db ++ c.inserts) stores
        have ha2 := run_cycle_response_not_aborted bot ci c.orcs (g' c)
          (db ++ c.inserts) stores
        simp only [List.map_cons, run_cycles, ha1, ha2, Bool.false_eq_true,
          if_false]
        rw [hdb, hst]
        obtain ⟨ih1, ih2, ih3, ih4⟩ :=
          ih (run_cycle bot ci c.orcs (TelegramResult.response (g' c))
              (db ++ c.inserts) stores).db
            (run_cycle bot ci c.orcs (TelegramResult.response (g' c))
              (db ++ c.inserts) stores).stores
        exact ⟨ih1, ih2, by simp [hsum, ih3], by simp [ih4]⟩
  · intro bot ci t ht
    rcases bot with _ | bt
    · rfl
    · rcases ci with _ | cid
      · rfl
      · unfold send_telegram_message
        by_cases hb : bt ≠ "" && cid ≠ "" <;> simp [hb, ht]
  · intro bt ci c rest db stores hbt hci hc hne
    have hsend : send_telegram_message (some bt) (some ci)
        TelegramResult.exc = Except.error () := by
      simp [send_telegram_message, hbt, hci]
    have hout : run_cycle (some bt) (some ci) c.orcs c.tg (db ++ c.inserts)
        stores =
        ⟨apply_writes (db ++ c.inserts)
            (process_batch stores c.orcs
              (fetch_pending (db ++ c.inserts))).writes,
          (process_batch stores c.orcs
            (fetch_pending (db ++ c.inserts))).stores,
          some (mk_summary (fetch_pending (db ++ c.inserts)).length
            (process_batch stores c.orcs
              (fetch_pending (db ++ c.inserts)))),
          none, true⟩ := by
      rw [hc]
      unfold run_cycle
      simp [hne, hsend]
    constructor
    · simp [run_cycles, hout]
    · simp [run_cycles, hout]

/-- Witness for C9 at concrete inputs: one cycle whose Telegram send
receives a 500 response leaves the database exactly as a 200 would, and the
500 is only logged. -/
theorem C9_notification_failure_swallowed_witness :
    (run_cycles (some "bt") (some "ci") [] example_stores
        [⟨[example_row], example_orcs, TelegramResult.response 200⟩]).1 =
      (run_cycles (some "bt") (some "ci") [] example_stores
        [⟨[example_row], example_orcs, TelegramResult.response 500⟩]).1 ∧
    send_telegram_message (some "bt") (some "ci")
      (TelegramResult.response 500) = Except.ok true := by
  constructor
  · have h := (C9_notification_failure_swallowed.1 (some "bt") (some "ci") []
      example_stores [⟨[example_row], example_orcs, TelegramResult.exc⟩]
      (fun _ => 200) (fun _ => 500)).1
    simpa using h
  · exact C9_notification_failure_swallowed.2.1 (some "bt") (some "ci") 500
      (by decide)

/-- Whether the pipeline reaches the `order_fulfilled = True` outcome for
one order: no exception, lookup 200 with a match, enumerate 200 with a
non-empty body, and the create loop setting the flag. -/
def pipeline_fulfilled (orc : RemoteOracle) : Bool :=
  !orc.raises && (orc.lookup_status == 200) && !orc.lookup_orders.isEmpty &&
    (orc.enumerate_status == 200) && !orc.fulfillment_orders.isEmpty &&
    (fulfill_loop orc orc.fulfillment_orders).1

theorem process_order_stores_char (stores : List (String × StoreState))
    (orc : RemoteOracle) (row : Order) :
    (process_order stores orc row).stores =
      match stores.lookup (routing_key row.order_name) with
      | none => stores
      | some _ =>
          if pipeline_fulfilled orc then
            bump_success stores (routing_key row.order_name)
          else
            bump_failure stores (routing_key row.order_name) row.order_name := by
  unfold process_order
  cases hl2 : stores.lookup (routing_key row.order_name) with
  | none => simp [hl2]
  | some s =>
      simp only [hl2]
      (repeat' split) <;> simp_all [pipeline_fulfilled]

theorem lookup_update_key (g : StoreState → StoreState) (k p : String)
    (stores : List (String × StoreState)) :
    (stores.map (fun q => if q.1 = k then (q.1, g q.2) else q)).lookup p =
      if p = k then (stores.lookup p).map g else stores.lookup p := by
  induction stores with
  | nil => by_cases h : p = k <;> simp [h]
  | cons q rest ih =>
      rw [List.map_cons]
      by_cases hq : q.1 = k
      · rw [if_pos hq]
        by_cases hp : p = q.1
        · have hpk : p = k := hp.trans hq
          have hb : (p == q.1) = true := beq_iff_eq.mpr hp
          simp [List.lookup, hb, hpk, hq]
        · have hpk : p ≠ k := fun hh => hp (hh.trans hq.symm)
          have hb : (p == q.1) = false := beq_eq_false_iff_ne.mpr hp
          simp [List.lookup, hb, hpk, ih]
      · rw [if_neg hq]
        by_cases hp : p = q.1
        · have hpk : p ≠ k := fun hh => hq (by rw [← hp]; exact hh)
          have hb : (p == q.1) = true := beq_iff_eq.mpr hp
          simp [List.lookup, hb, hpk, hq]
        · have hb : (p == q.1) = false := beq_eq_false_iff_ne.mpr hp
          by_cases hpk : p = k
          · subst hpk
            simp [List.lookup, hb, ih]
          · simp [List.lookup, hb, hpk, ih]

theorem lookup_bump_success (stores : List (String × StoreState))
    (k p : String) :
    (bump_success stores k).lookup p =
      if p = k then
        (stores.lookup p).map
          (fun s => { s with success_count := s.success_count + 1 })
      else stores.lookup p :=
  lookup_update_key (fun s => { s with success_count := s.success_count + 1 })
    k p stores

theorem lookup_bump_failure (stores : List (String × StoreState))
    (k p : String) (name : String) :
    (bump_failure stores k name).lookup p =
      if p = k then
        (stores.lookup p).map
          (fun s => { s with failure_count := s.failure_count + 1,
                             failed_orders := s.failed_orders ++ [name] })
      else stores.lookup p :=
  lookup_update_key
    (fun s => { s with failure_count := s.failure_count + 1,
                       failed_orders := s.failed_orders ++ [name] })
    k p stores

theorem process_batch_counter_delta (orcs : Nat → RemoteOracle)
    (rows : List Order) :
    ∀ (stores : List (String × StoreState)) (p : String) (s0 : StoreState),
      stores.lookup p = some s0 →
      ∃ s1, (process_batch stores orcs rows).stores.lookup p = some s1 ∧
        s1.success_count = s0.success_count +
          (rows.filter (fun row => (routing_key row.order_name == p) &&
            pipeline_fulfilled (orcs row.id))).length ∧
        s1.failure_count = s0.failure_count +
          (rows.filter (fun row => (routing_key row.order_name == p) &&
            !pipeline_fulfilled (orcs row.id))).length := by
  induction rows with
  | nil =>
      intro stores p s0 hp
      exact ⟨s0, by simpa [process_batch] using hp, by simp, by simp⟩
  | cons row rest ih =>
      intro stores p s0 hp
      have hchar := process_order_stores_char stores (orcs row.id) row
      have hbatch : (process_batch stores orcs (row :: rest)).stores =
          (process_batch (process_order stores (orcs row.id) row).stores orcs
            rest).stores := rfl
      by_cases hk : ∃ sk, stores.lookup (routing_key row.order_name) = some sk
      · obtain ⟨sk, hk⟩ := hk
        by_cases hf : pipeline_fulfilled (orcs row.id) = true
        · have hres : (process_order stores (orcs row.id) row).stores =
              bump_success stores (routing_key row.order_name) := by
            rw [hchar, hk]
            simp [hf]
          by_cases hpk : routing_key row.order_name = p
          · have hlook : (process_order stores (orcs row.id) row).stores.lookup
                p = some { s0 with success_count := s0.success_count + 1 } := by
              rw [hres, lookup_bump_success]
              simp [hpk, hp]
            obtain ⟨s1, h1, h2, h3⟩ := ih _ p _ hlook
            refine ⟨s1, by rw [hbatch]; exact h1, ?_, ?_⟩
            · rw [h2]
              simp [List.filter_cons, hpk, hf]
              omega
            · rw [h3]
              simp [List.filter_cons, hpk, hf]
          · have hne : p ≠ routing_key row.order_name := fun hh => hpk hh.symm
            have hlook : (process_order stores (orcs row.id) row).stores.lookup
                p = some s0 := by
              rw [hres, lookup_bump_success]
              simp [hne, hp]
            obtain ⟨s1, h1, h2, h3⟩ := ih _ p _ hlook
            refine ⟨s1, by rw [hbatch]; exact h1, ?_, ?_⟩
            · rw [h2]
              simp [List.filter_cons, hpk]
            · rw [h3]
              simp [List.filter_cons, hpk]
        · have hres : (process_order stores (orcs row.id) row).stores =
              bump_failure stores (routing_key row.order_name)
                row.order_name := by
            rw [hchar, hk]
            simp [hf]
          by_cases hpk : routing_key row.order_name = p
          · have hlook : (process_order stores (orcs row.id) row).stores.lookup
                p = some { s0 with
                            failure_count := s0.failure_count + 1,
                            failed_orders :=
                              s0.failed_orders ++ [row.order_name] } := by
              rw [hres, lookup_bump_failure]
              simp [hpk, hp]
            obtain ⟨s1, h1, h2, h3⟩ := ih _ p _ hlook
            refine ⟨s1, by rw [hbatch]; exact h1, ?_, ?_⟩
            · rw [h2]
              simp [List.filter_cons, hpk, hf]
            · rw [h3]
              simp [List.filter_cons, hpk, hf]
              omega
          · have hne : p ≠ routing_key row.order_name := fun hh => hpk hh.symm
            have hlook : (process_order stores (orcs row.id) row).stores.lookup
                p = some s0 := by
              rw [hres, lookup_bump_failure]
              simp [hne, hp]
            obtain ⟨s1, h1, h2, h3⟩ := ih _ p _ hlook
            refine ⟨s1, by rw [hbatch]; exact h1, ?_, ?_⟩
            · rw [h2]
              simp [List.filter_cons, hpk]
            · rw [h3]
              simp [List.filter_cons, hpk]
      · push_neg at hk
        have hknone : stores.lookup (routing_key row.order_name) = none := by
          rcases hh : stores.lookup (routing_key row.order_name) with _ | sk
          · rfl
          · exact absurd hh (hk sk)
        have hres : (process_order stores (orcs row.id) row).stores = stores := by
          rw [hchar, hknone]
        have hpk : routing_key row.order_name ≠ p := by
          intro hh
          rw [hh, hp] at hknone
          exact Option.noConfusion hknone
        obtain ⟨s1, h1, h2, h3⟩ :=
          ih (process_order stores (orcs row.id) row).stores p s0
            (by rw [hres]; exact hp)
        refine ⟨s1, by rw [hbatch]; exact h1, ?_, ?_⟩
        · rw [h2]
          simp [List.filter_cons, hpk]
        · rw [h3]
          simp [List.filter_cons, hpk]

theorem lookup_append (p : String) (l1 l2 : List (String × StoreState)) :
    (l1 ++ l2).lookup p =
      match l1.lookup p with
      | some v => some v
      | none => l2.lookup p := by
  induction l1 with
  | nil => simp [List.lookup]
  | cons q rest ih =>
      by_cases h : p = q.1
      · have hb : (p == q.1) = true := beq_iff_eq.mpr h
        simp [List.lookup, hb]
      · have hb : (p == q.1) = false := beq_eq_false_iff_ne.mpr h
        simp [List.lookup, hb, ih]

theorem dict_insert_pred (P : StoreState → Prop) (m : List (String × StoreState))
    (k : String) (v : StoreState)
    (hm : ∀ p s, m.lookup p = some s → P s) (hv : P v) :
    ∀ p s, (dict_insert m k v).lookup p = some s → P s := by
  intro p s h
  unfold dict_insert at h
  by_cases hk : (m.lookup k).isSome
  · rw [if_pos hk, lookup_update_key (fun _ => v) k p m] at h
    by_cases hpk : p = k
    · rw [if_pos hpk] at h
      rcases hlp : m.lookup p with _ | w
      · rw [hlp] at h
        cases h
      · rw [hlp] at h
        cases h
        exact hv
    · rw [if_neg hpk] at h
      exact hm p s h
  · rw [if_neg hk, lookup_append] at h
    rcases hlp : m.lookup p with _ | w
    · rw [hlp] at h
      by_cases hpk : p = k
      · have hb : (p == k) = true := beq_iff_eq.mpr hpk
        simp [List.lookup, hb] at h
        rw [← h]
        exact hv
      · have hb : (p == k) = false := beq_eq_false_iff_ne.mpr hpk
        simp [List.lookup, hb] at h
    · rw [hlp] at h
      cases h
      exact hm p _ hlp

theorem load_stores_zero_counters (env : List (String × String)) :
    ∀ p s, (load_stores env).lookup p = some s →
      s.success_count = 0 ∧ s.failure_count = 0 ∧ s.failed_orders = [] := by
  unfold load_stores
  suffices h : ∀ (l : List (String × String)) (acc : List (String × StoreState)),
      (∀ p s, acc.lookup p = some s →
        s.success_count = 0 ∧ s.failure_count = 0 ∧ s.failed_orders = []) →
      ∀ p s, (l.foldl (load_stores_step env) acc).lookup p = some s →
        s.success_count = 0 ∧ s.failure_count = 0 ∧ s.failed_orders = [] by
    exact h env [] (by intro p s hs; simp [List.lookup] at hs)
  intro l
  induction l with
  | nil => intro acc hacc; exact hacc
  | cons kv rest ih =>
      intro acc hacc
      rw [List.foldl_cons]
      apply ih
      intro p s hs
      unfold load_stores_step at hs
      dsimp only at hs
      by_cases hc : ("STORE_".data.isPrefixOf kv.1.data) &&
          ("_ORDER_PREFIX".data.isSuffixOf kv.1.data)
      · rw [if_pos hc] at hs
        rcases h1 : env.lookup ("STORE_" ++
            (⟨(split_on_uscore kv.1.data).getD 1 []⟩ : String) ++
            "_STORE_URL") with _ | store_url <;>
          rcases h2 : env.lookup ("STORE_" ++
              (⟨(split_on_uscore kv.1.data).getD 1 []⟩ : String) ++
              "_ACCESS_TOKEN") with _ | access_token <;>
          rw [h1, h2] at hs
        · exact hacc p s hs
        · exact hacc p s hs
        · exact hacc p s hs
        · dsimp only at hs
          by_cases h3 : store_url ≠ "" && access_token ≠ ""
          · rw [if_pos h3] at hs
            exact dict_insert_pred _ acc (str_upper kv.2)
              (store_init store_url access_token) hacc ⟨rfl, rfl, rfl⟩ p s hs
          · rw [if_neg h3] at hs
            exact hacc p s hs
      · rw [if_neg hc] at hs
        exact hacc p s hs

theorem run_cycles_counters_mono (bot ci : Option String)
    (cs : List CycleInput) :
    ∀ (db : List Order) (stores : List (String × StoreState)) (p : String)
      (s0 : StoreState), stores.lookup p = some s0 →
      ∃ s1, (run_cycles bot ci db stores cs).2.1.lookup p = some s1 ∧
        s0.success_count ≤ s1.success_count ∧
        s0.failure_count ≤ s1.failure_count := by
  induction cs with
  | nil =>
      intro db stores p s0 hp
      exact ⟨s0, hp, le_refl _, le_refl _⟩
  | cons c rest ih =>
      intro db stores p s0 hp
      by_cases he : (fetch_pending (db ++ c.inserts)).isEmpty
      · have hout : run_cycle bot ci c.orcs c.tg (db ++ c.inserts) stores =
            ⟨db ++ c.inserts, stores, none, none, false⟩ := by
          unfold run_cycle
          simp [he]
        obtain ⟨s1, h1, h2, h3⟩ := ih (db ++ c.inserts) stores p s0 hp
        refine ⟨s1, ?_, h2, h3⟩
        simp only [run_cycles, hout]
        exact h1
      · obtain ⟨sm, hm1, hm2, hm3⟩ := process_batch_counter_delta c.orcs
          (fetch_pending (db ++ c.inserts)) stores p s0 hp
        rcases hsend : send_telegram_message bot ci c.tg with e | logged
        · have hout : run_cycle bot ci c.orcs c.tg (db ++ c.inserts) stores =
              ⟨apply_writes (db ++ c.inserts)
                  (process_batch stores c.orcs
                    (fetch_pending (db ++ c.inserts))).writes,
                (process_batch stores c.orcs
                  (fetch_pending (db ++ c.inserts))).stores,
                some (mk_summary (fetch_pending (db ++ c.inserts)).length
                  (process_batch stores c.orcs
                    (fetch_pending (db ++ c.inserts)))),
                none, true⟩ := by
            unfold run_cycle
            simp [he, hsend]
          refine ⟨sm, ?_, by omega, by omega⟩
          simp only [run_cycles, hout]
          exact hm1
        · have hout : run_cycle bot ci c.orcs c.tg (db ++ c.inserts) stores =
              ⟨apply_writes (db ++ c.inserts)
                  (process_batch stores c.orcs
                    (fetch_pending (db ++ c.inserts))).writes,
                (process_batch stores c.orcs
                  (fetch_pending (db ++ c.inserts))).stores,
                some (mk_summary (fetch_pending (db ++ c.inserts)).length
                  (process_batch stores c.orcs
                    (fetch_pending (db ++ c.inserts)))),
                some logged, false⟩ := by
            unfold run_cycle
            simp [he, hsend]
          obtain ⟨s1, h1, h2, h3⟩ :=
            ih (apply_writes (db ++ c.inserts)
                (process_batch stores c.orcs
                  (fetch_pending (db ++ c.inserts))).writes)
              (process_batch stores c.orcs
                (fetch_pending (db ++ c.inserts))).stores p sm hm1
          refine ⟨s1, ?_, by omega, by omega⟩
          simp only [run_cycles, hout]
          exact h1

/-- C6 counterexample: over two poll cycles each bringing one successful
order for the tenant keyed `G1`, the second cycle's summary reports
`success_count = 2` although that batch contains a single order, and the
store map the loop carries into the second cycle (the map after cycle one)
already has `success_count = 1` — the counters were not reset to zero at the
start of the second poll cycle. -/
theorem C6_counterexample :
    ((run_cycles (some "bt") (some "ci") [] example_stores
        [⟨[⟨1, "G12345", "t", "DHL", Status.pending, none⟩], example_orcs,
           TelegramResult.response 200⟩,
         ⟨[⟨2, "G19999", "t", "DHL", Status.pending, none⟩], example_orcs,
           TelegramResult.response 200⟩]).2.2.map CycleOutcome.summary) =
      [some ⟨1, 1, 0, [⟨"G1", 1, 0, []⟩]⟩,
       some ⟨1, 1, 0, [⟨"G1", 2, 0, []⟩]⟩] ∧
    (run_cycles (some "bt") (some "ci") [] example_stores
        [⟨[⟨1, "G12345", "t", "DHL", Status.pending, none⟩], example_orcs,
          TelegramResult.response 200⟩]).2.1 =
      [("G1", ⟨"https://shop.example", "tok", 1, 0, []⟩)] := by
  constructor
  · decide
  · decide

/-- C6 amended: the per-tenant counters are zeroed once, when `load_stores`
builds the store map at process start, and are never reset afterwards: over
any batch each tenant's success counter grows by exactly the number of that
batch's orders routed to it and fulfilled (and the failure counter by the
number routed to it and not fulfilled), and over any sequence of poll cycles
the counters never decrease — so the per-tenant summary reflects cumulative
outcomes since startup, not a per-batch reset. -/
theorem C6_counters_accumulate :
    (∀ (env : List (String × String)) (p : String) (s : StoreState),
        (load_stores env).lookup p = some s →
        s.success_count = 0 ∧ s.failure_count = 0 ∧ s.failed_orders = []) ∧
    (∀ (orcs : Nat → RemoteOracle) (rows : List Order)
        (stores : List (String × StoreState)) (p : String) (s0 : StoreState),
        stores.lookup p = some s0 →
        ∃ s1, (process_batch stores orcs rows).stores.lookup p = some s1 ∧
          s1.success_count = s0.success_count +
            (rows.filter (fun row => (routing_key row.order_name == p) &&
              pipeline_fulfilled (orcs row.id))).length ∧
          s1.failure_count = s0.failure_count +
            (rows.filter (fun row => (routing_key row.order_name == p) &&
              !pipeline_fulfilled (orcs row.id))).length) ∧
    (∀ (bot ci : Option String) (cs : List CycleInput) (db : List Order)
        (stores : List (String × StoreState)) (p : String) (s0 : StoreState),
        stores.lookup p = some s0 →
        ∃ s1, (run_cycles bot ci db stores cs).2.1.lookup p = some s1 ∧
          s0.success_count ≤ s1.success_count ∧
          s0.failure_count ≤ s1.failure_count) :=
  ⟨load_stores_zero_counters,
   fun orcs rows => process_batch_counter_delta orcs rows,
   fun bot ci cs db => run_cycles_counters_mono bot ci cs db⟩

/-- Witness for the amended C6 at concrete inputs: a one-tenant environment
loads with zeroed counters, and a two-cycle run (one success per cycle)
carries the counter from 0 up — never resetting — to 2. -/
theorem C6_counters_accumulate_witness :
    ((load_stores [("STORE_1_ORDER_PREFIX", "g1"),
        ("STORE_1_STORE_URL", "https://shop.example"),
        ("STORE_1_ACCESS_TOKEN", "tok")]).lookup "G1" =
      some (store_init "https://shop.example" "tok")) ∧
    ((store_init "https://shop.example" "tok").success_count = 0 ∧
      (store_init "https://shop.example" "tok").failure_count = 0 ∧
      (store_init "https://shop.example" "tok").failed_orders = []) ∧
    (∃ s1, (run_cycles (some "bt") (some "ci") [] example_stores
        [⟨[⟨1, "G12345", "t", "DHL", Status.pending, none⟩], example_orcs,
           TelegramResult.response 200⟩,
         ⟨[⟨2, "G19999", "t", "DHL", Status.pending, none⟩], example_orcs,
           TelegramResult.response 200⟩]).2.1.lookup "G1" = some s1 ∧
      (store_init "https://shop.example" "tok").success_count ≤
        s1.success_count ∧
      (store_init "https://shop.example" "tok").failure_count ≤
        s1.failure_count) := by
  refine ⟨by decide, ?_, ?_⟩
  · exact C6_counters_accumulate.1 [("STORE_1_ORDER_PREFIX", "g1"),
      ("STORE_1_STORE_URL", "https://shop.example"),
      ("STORE_1_ACCESS_TOKEN", "tok")] "G1"
      (store_init "https://shop.example" "tok") (by decide)
  · exact C6_counters_accumulate.2.2 (some "bt") (some "ci")
      [⟨[⟨1, "G12345", "t", "DHL", Status.pending, none⟩], example_orcs,
           TelegramResult.response 200⟩,
       ⟨[⟨2, "G19999", "t", "DHL", Status.pending, none⟩], example_orcs,
           TelegramResult.response 200⟩]
      [] example_stores "G1" (store_init "https://shop.example" "tok")
      (by decide)

end Uptrack
